import Mathlib

/-
  Verification of the receipt backend (src/app_prod.py) against its
  natural-language specification.

  The embedding models Python's dynamic JSON values with the inductive
  type `Json` below.  Python's json module distinguishes int and float
  literals, which matters for the webhook identifier scan
  (`isinstance(v, (str, int))`), so integers (`num`) and floats (`fnum`)
  are separate constructors.  Python `None` and JSON null coincide and
  are both modelled by `Json.null`.  A raised Python exception is
  modelled by `Except.error`; pure code returns `Except.ok` or a plain
  value.  Times are explicit parameters (seconds as `Int`; the
  epoch-millisecond clock used for synthesized receipt numbers as `Nat`).
-/

namespace Qbo

/-- Dynamic JSON / Python values.  `num` holds numbers parsed from integer
literals (Python `int`), `fnum` numbers parsed from float literals
(Python `float`). -/
inductive Json where
  | null
  | bool (b : Bool)
  | num (n : Int)
  | fnum (q : Rat)
  | str (s : String)
  | arr (elems : List Json)
  | obj (fields : List (String × Json))

mutual

/-- Boolean equality on `Json` (Python `==` restricted to the value
forms above; used only for dictionary-key comparison). -/
def beqJson : Json → Json → Bool
  | .null, .null => true
  | .bool a, .bool b => a == b
  | .num a, .num b => a == b
  | .fnum a, .fnum b => a == b
  | .str a, .str b => a == b
  | .arr a, .arr b => beqJsonList a b
  | .obj a, .obj b => beqJsonKvs a b
  | _, _ => false

/-- Elementwise equality of JSON arrays. -/
def beqJsonList : List Json → List Json → Bool
  | [], [] => true
  | a :: as, b :: bs => beqJson a b && beqJsonList as bs
  | _, _ => false

/-- Elementwise equality of JSON object field lists. -/
def beqJsonKvs : List (String × Json) → List (String × Json) → Bool
  | [], [] => true
  | (k1, v1) :: as, (k2, v2) :: bs => k1 == k2 && beqJson v1 v2 && beqJsonKvs as bs
  | _, _ => false

end

instance : BEq Json := ⟨beqJson⟩

/-- Python truthiness of a value: `None`, `False`, `0`, `0.0`, `""`, `[]`
and `{}` are falsy, everything else truthy. -/
def Json.truthy : Json → Bool
  | .null => false
  | .bool b => b
  | .num n => n != 0
  | .fnum q => q != 0
  | .str s => s != ""
  | .arr xs => !xs.isEmpty
  | .obj kvs => !kvs.isEmpty

/-- Lookup of a key in an object's field list (Python dict access;
dicts produced by the json module have unique keys, so first match). -/
def jLookup (kvs : List (String × Json)) (k : String) : Option Json :=
  (kvs.find? (fun p => p.1 == k)).map (·.2)

/-- Python `d.get(k)`: the value, or `None` when the key is absent. -/
def dictGet (kvs : List (String × Json)) (k : String) : Json :=
  (jLookup kvs k).getD .null

/-- Python `d.get(k, default)`. -/
def dictGetD (kvs : List (String × Json)) (k : String) (d : Json) : Json :=
  (jLookup kvs k).getD d

/-- Python `a or b` (value-level short-circuit on truthiness). -/
def orJ (a b : Json) : Json := if a.truthy then a else b

/-- Python `x.get(k)` on an arbitrary value: `AttributeError` unless `x`
is a dict. -/
def mget (j : Json) (k : String) : Except String Json :=
  match j with
  | .obj kvs => .ok (dictGet kvs k)
  | _ => .error "AttributeError: get"

/-- Python `x.get(k, default)` on an arbitrary value. -/
def mgetD (j : Json) (k : String) (d : Json) : Except String Json :=
  match j with
  | .obj kvs => .ok (dictGetD kvs k d)
  | _ => .error "AttributeError: get"

/-- Iterating Python `for x in v` where the loop body calls `x.get`:
succeeds with the elements when `v` is a list; any truthy non-list
eventually raises (dict/str iteration feeds non-dict elements to `.get`,
numbers are not iterable), which we model as an immediate error.  Falsy
values never reach this point because the source guards with `or []`. -/
def asIterable (j : Json) : Except String (List Json) :=
  match j with
  | .arr xs => .ok xs
  | _ => .error "TypeError: not iterable"

/-- Whether an `Except` is a success. -/
def isOkE {α : Type} (e : Except String α) : Bool :=
  match e with
  | .ok _ => true
  | .error _ => false

/- ----------------------------------------------------------------
   Python string helpers, modelled structurally over character lists
   (ASCII case mapping; only the \n line separator of `splitlines`
   is modelled, which covers every string the claims involve).
   ---------------------------------------------------------------- -/

/-- Python whitespace stripped by `str.strip()`. -/
def isPySpace (c : Char) : Bool :=
  c == ' ' || c == '\t' || c == '\n' || c == '\r' || c == '\x0b' || c == '\x0c'

/-- `str.strip()` on a character list. -/
def pyStripList (cs : List Char) : List Char :=
  ((cs.dropWhile isPySpace).reverse.dropWhile isPySpace).reverse

/-- Python `s.strip()`. -/
def pyStrip (s : String) : String := String.mk (pyStripList s.data)

/-- Python `s.lower()` (ASCII). -/
def toLowerStr (s : String) : String := String.mk (s.data.map Char.toLower)

/-- Does `pat` occur at the head of `l`? -/
def subAt (pat l : List Char) : Bool :=
  match pat, l with
  | [], _ => true
  | _ :: _, [] => false
  | p :: ps, c :: cs => p == c && subAt ps cs

/-- Does `pat` occur anywhere in `l`?  (Python `pat in s`.) -/
def hasSub (pat : List Char) : List Char → Bool
  | [] => pat.isEmpty
  | c :: cs => subAt pat (c :: cs) || hasSub pat cs

/-- Python `pat in hay` for strings. -/
def strHasSub (hay pat : String) : Bool := hasSub pat.data hay.data

/-- Split at the first occurrence of a character, if present
(Python `s.split(c, 1)`). -/
def splitAtFirst (c : Char) : List Char → Option (List Char × List Char)
  | [] => none
  | a :: as =>
    if a == c then some ([], as)
    else (splitAtFirst c as).map (fun p => (a :: p.1, p.2))

/-- The part of a line after its first colon (Python
`line.split(chr(58), 1)[1]`, only used when a colon is present). -/
def afterColon (line : String) : String :=
  match splitAtFirst ':' line.data with
  | some p => String.mk p.2
  | none => line

/-- Remove every occurrence of `pat` (Python `s.replace(pat, '')`),
fuel-driven so that it is structurally recursive; the fuel `l.length`
always suffices because every step consumes at least one character. -/
def removeSubFuel (pat : List Char) : Nat → List Char → List Char
  | 0, l => l
  | _, [] => []
  | fuel + 1, c :: cs =>
    if subAt pat (c :: cs) && !pat.isEmpty then
      removeSubFuel pat fuel (cs.drop (pat.length - 1))
    else
      c :: removeSubFuel pat fuel cs

/-- Python `s.replace(pat, '')`. -/
def pyRemove (s pat : String) : String :=
  String.mk (removeSubFuel pat.data s.data.length s.data)

/-- Python `str.title()` core: the first letter of each run of letters is
uppercased, the rest lowercased (ASCII). -/
def pyTitleAux : Bool → List Char → List Char
  | _, [] => []
  | prev, c :: cs =>
    if c.isAlpha then
      (if prev then c.toLower else c.toUpper) :: pyTitleAux true cs
    else
      c :: pyTitleAux false cs

/-- Python `s.title()`. -/
def pyTitle (s : String) : String := String.mk (pyTitleAux false s.data)

/-- Auxiliary for `splitlines`: split on the newline character, keeping
empty pieces. -/
def splitLinesAux : List Char → List Char → List (List Char)
  | [], acc => [acc.reverse]
  | c :: cs, acc =>
    if c == '\n' then acc.reverse :: splitLinesAux cs [] else splitLinesAux cs (c :: acc)

/-- Python `s.splitlines()` restricted to the \n separator: like splitting
on \n, except that a trailing newline yields no extra empty line and the
empty string yields no lines. -/
def pySplitlines (s : String) : List String :=
  let parts := splitLinesAux s.data []
  (if parts.getLast? = some [] then parts.dropLast else parts).map String.mk

/- ----------------------------------------------------------------
   Receipt normalizer: parse_salesreceipt (src/app_prod.py lines 281-383).
   The raw document `s` is a JSON object, given as its field list; its
   nested values are arbitrary.  `nowMs` models int(time.time()*1000),
   `nowIso` models datetime.utcnow().isoformat().
   ---------------------------------------------------------------- -/

/-- A normalized line item (the dict appended at lines 345-352). -/
structure Item where
  name : Json
  description : Json
  quantity : Json
  unit_price : Json
  amount : Json
  tax_code : Json

/-- A normalized tax line (lines 356-361). -/
structure TaxLineR where
  amount : Json
  detail_type : Json
  tax_rate_ref : Json

/-- A normalized payment (lines 363-368). -/
structure PaymentR where
  amount : Json
  method : Json

/-- The canonical receipt record (the dict built at lines 372-382);
its nine fields are exactly the nine keys of `parsed`. -/
structure Parsed where
  receiptNumber : Json
  createdAt : Json
  customerName : Json
  customerContact : Json
  servedBy : Json
  items : List Item
  taxes : List TaxLineR
  payments : List PaymentR
  total : Json

/-- The synthesized receipt-number fallback, Python
f-string R-{int(time.time()*1000)}. -/
def synthFallback (nowMs : Nat) : String := "R-" ++ toString nowMs

/-- Step 1 (line 283): DocNumber or Id or the synthesized fallback. -/
def receiptNumberOf (nowMs : Nat) (s : List (String × Json)) : Json :=
  orJ (dictGet s "DocNumber") (orJ (dictGet s "Id") (.str (synthFallback nowMs)))

/-- Step 2 (lines 286-287): metadata CreateTime, TxnDate, or now.
Raises when MetaData is a truthy non-dict. -/
def createdAtOf (nowIso : String) (s : List (String × Json)) : Except String Json :=
  match mget (orJ (dictGet s "MetaData") (.obj [])) "CreateTime" with
  | .error e => .error e
  | .ok ct => .ok (orJ ct (orJ (dictGet s "TxnDate") (.str nowIso)))

/-- Step 3 (line 290): CustomerRef name or empty.  Raises when
CustomerRef is a truthy non-dict. -/
def customerNameOf (s : List (String × Json)) : Except String Json :=
  match mget (orJ (dictGet s "CustomerRef") (.obj [])) "name" with
  | .error e => .error e
  | .ok n => .ok (orJ n (.str ""))

/-- One arm of the contact chain (lines 294-299): when the holder is
truthy, read its sub-key; a truthy sub-value is the contact. -/
def contactArm (holder : Json) (k : String) : Except String (Option Json) :=
  if holder.truthy then
    match mget holder k with
    | .error e => .error e
    | .ok v => .ok (if v.truthy then some v else none)
  else .ok none

/-- Step 4 (lines 293-299): BillAddr Line1, ShipAddr Line1, BillEmail
Address, or empty. -/
def contactOf (s : List (String × Json)) : Except String Json :=
  match contactArm (dictGet s "BillAddr") "Line1" with
  | .error e => .error e
  | .ok (some v) => .ok v
  | .ok none =>
    match contactArm (dictGet s "ShipAddr") "Line1" with
    | .error e => .error e
    | .ok (some v) => .ok v
    | .ok none =>
      match contactArm (dictGet s "BillEmail") "Address" with
      | .error e => .error e
      | .ok (some v) => .ok v
      | .ok none => .ok (.str "")

/-- Loop body of the reference chain (lines 303-306): when the field is
a dict, served_by is reassigned to name or value or empty; otherwise it
is left unchanged. -/
def refResolve (r : Json) (acc : Json) : Json :=
  match r with
  | .obj kvs => orJ (dictGet kvs "name") (orJ (dictGet kvs "value") (.str ""))
  | _ => acc

/-- The reference loop (lines 302-308): iterate the fields in order,
breaking at the first truthy served_by. -/
def servedByRefsLoop (s : List (String × Json)) : List String → Json → Json
  | [], acc => acc
  | f :: fs, acc =>
    let acc' := refResolve (dictGet s f) acc
    if acc'.truthy then acc' else servedByRefsLoop s fs acc'

/-- Served-by fallback (a): the location/class/department reference
chain, started from the empty string. -/
def servedByRefs (s : List (String × Json)) : Json :=
  servedByRefsLoop s ["LocationRef", "Location", "ClassRef", "DepartmentRef"] (.str "")

/-- The stripped customer memo (line 311).  Raises when CustomerMemo is
a truthy non-dict or its value is a present non-string. -/
def memoValue (s : List (String × Json)) : Except String String :=
  match mgetD (orJ (dictGet s "CustomerMemo") (.obj [])) "value" (.str "") with
  | .error e => .error e
  | .ok (.str t) => .ok (pyStrip t)
  | .ok _ => .error "AttributeError: strip"

/-- What the marker line yields (lines 318-321): text after the first
colon, stripped; or, with no colon, the lowered line with the marker
removed, stripped and title-cased. -/
def markerExtract (line : String) : String :=
  if line.data.contains ':' then pyStrip (afterColon line)
  else pyTitle (pyStrip (pyRemove (toLowerStr line) "served by"))

/-- The memo line loop (lines 316-322): the first line containing the
marker determines served_by; no match leaves it unchanged. -/
def memoLineLoop : List String → Json → Json
  | [], acc => acc
  | l :: ls, acc =>
    if strHasSub (toLowerStr l) "served by" then .str (markerExtract l)
    else memoLineLoop ls acc

/-- Served-by fallback (b), the memo branch (lines 310-326), entered
with the current falsy served_by `sb`. -/
def servedByMemo (s : List (String × Json)) (sb : Json) : Except String Json :=
  match memoValue s with
  | .error e => .error e
  | .ok m =>
    if m == "" then .ok sb
    else if strHasSub (toLowerStr m) "served by" then
      .ok (memoLineLoop (pySplitlines m) sb)
    else .ok (.str m)

/-- Served-by fallback (c), the custom-field loop (lines 328-333):
first field whose lowered Name contains served/location/branch wins,
taking StringValue or Value or empty; the break is unconditional. -/
def customFieldLoop (acc : Json) : List Json → Except String Json
  | [] => .ok acc
  | cf :: rest =>
    match mget cf "Name" with
    | .error e => .error e
    | .ok nmv =>
      match orJ nmv (.str "") with
      | .str t =>
        let nm := toLowerStr t
        if strHasSub nm "served" || strHasSub nm "location" || strHasSub nm "branch" then
          match mget cf "StringValue", mget cf "Value" with
          | .error e, _ => .error e
          | _, .error e => .error e
          | .ok sv, .ok vv => .ok (orJ sv (orJ vv (.str "")))
        else customFieldLoop acc rest
      | _ => .error "AttributeError: lower"

/-- Step 5 in full (lines 301-333): references, then memo, then custom
fields, each tried only while served_by is falsy. -/
def servedByOf (s : List (String × Json)) : Except String Json :=
  let sbRefs := servedByRefs s
  match (if sbRefs.truthy then .ok sbRefs else servedByMemo s sbRefs : Except String Json) with
  | .error e => .error e
  | .ok sb1 =>
    if sb1.truthy then .ok sb1
    else
      match asIterable (orJ (dictGetD s "CustomField" (.arr [])) (.arr [])) with
      | .error e => .error e
      | .ok cfs => customFieldLoop sb1 cfs

/-- Step 6 loop body (lines 337-352): build one line item. -/
def itemOfLine (line : Json) : Except String Item :=
  match line with
  | .obj lkvs =>
    match orJ (dictGet lkvs "SalesItemLineDetail") (.obj []) with
    | .obj dkvs =>
      match orJ (dictGet dkvs "ItemRef") (.obj []) with
      | .obj ikvs =>
        .ok
          { name := orJ (dictGet ikvs "name") (.str "")
            description := orJ (dictGet lkvs "Description") (.str "")
            quantity := orJ (dictGet dkvs "Qty") (orJ (dictGet dkvs "Quantity") (.num 1))
            unit_price := orJ (dictGet dkvs "UnitPrice") (.num 0)
            amount := orJ (dictGet lkvs "Amount") (.num 0)
            tax_code :=
              match dictGet dkvs "TaxCodeRef" with
              | .obj tkvs => dictGet tkvs "value"
              | _ => .null }
      | _ => .error "AttributeError: get"
    | _ => .error "AttributeError: get"
  | _ => .error "AttributeError: get"

/-- Step 7 loop body for tax lines (lines 356-361). -/
def taxOfLine (t : Json) : Except String TaxLineR :=
  match t with
  | .obj kvs =>
    .ok
      { amount := orJ (dictGet kvs "Amount") (.num 0)
        detail_type := dictGet kvs "DetailType"
        tax_rate_ref :=
          match dictGet kvs "TaxLineDetail" with
          | .obj dkvs => dictGet dkvs "TaxRateRef"
          | _ => .null }
  | _ => .error "AttributeError: get"

/-- Step 7 loop body for payments (lines 363-368). -/
def paymentOf (p : Json) : Except String PaymentR :=
  match p with
  | .obj kvs =>
    .ok
      { amount := orJ (dictGet kvs "Amount") (.num 0)
        method :=
          match dictGet kvs "PaymentMethodRef" with
          | .obj m => dictGet m "name"
          | _ => .null }
  | _ => .error "AttributeError: get"

/-- Step 8 (line 370): TotalAmt or Total or zero. -/
def totalOf (s : List (String × Json)) : Json :=
  orJ (dictGet s "TotalAmt") (orJ (dictGet s "Total") (.num 0))

/-- parse_salesreceipt (lines 281-383), sequencing the steps in source
order; the first raised exception aborts the whole call. -/
def parse_salesreceipt (nowMs : Nat) (nowIso : String) (s : List (String × Json)) :
    Except String Parsed :=
  let receipt_number := receiptNumberOf nowMs s
  match createdAtOf nowIso s with
  | .error e => .error e
  | .ok created_at =>
  match customerNameOf s with
  | .error e => .error e
  | .ok customer_name =>
  match contactOf s with
  | .error e => .error e
  | .ok contact =>
  match servedByOf s with
  | .error e => .error e
  | .ok served_by =>
  match asIterable (orJ (dictGetD s "Line" (.arr [])) (.arr [])) with
  | .error e => .error e
  | .ok lines =>
  match lines.mapM itemOfLine with
  | .error e => .error e
  | .ok items =>
  match asIterable (orJ (dictGetD s "TaxLine" (.arr [])) (.arr [])) with
  | .error e => .error e
  | .ok tlines =>
  match tlines.mapM taxOfLine with
  | .error e => .error e
  | .ok taxes =>
  match asIterable (orJ (dictGetD s "Payment" (.arr [])) (.arr [])) with
  | .error e => .error e
  | .ok ps =>
  match ps.mapM paymentOf with
  | .error e => .error e
  | .ok payments =>
    .ok
      { receiptNumber := receipt_number
        createdAt := created_at
        customerName := customer_name
        customerContact := contact
        servedBy := served_by
        items := items
        taxes := taxes
        payments := payments
        total := totalOf s }

/- ----------------------------------------------------------------
   API-key gate: require_api_key (lines 545-552) and the 403 guard of
   the gated endpoints (e.g. lines 584-586).  Flask headers are
   case-insensitive, so the two header reads at line 548 return the
   same value, modelled as the single `header` argument; `none` means
   the header / query parameter is absent.
   ---------------------------------------------------------------- -/

/-- require_api_key: accept everything when the configured key is falsy
(unset or the empty string); otherwise accept exactly a matching
x-app-key header or api_key query parameter. -/
def require_api_key (key : Option String) (header q : Option String) : Bool :=
  match key with
  | none => true
  | some k =>
    if k == "" then true
    else header == some k || q == some k

/-- The guard prologue shared by the gated endpoints: `some 403` when
the request is rejected, `none` when handling proceeds. -/
def gateReject (key : Option String) (header q : Option String) : Option Nat :=
  if require_api_key key header q then none else some 403

/- ----------------------------------------------------------------
   Token refresh: refresh_access_token (lines 186-205).  `now` is
   time.time() in seconds; `reply` is the outcome of the single
   possible token-endpoint POST (`none` = non-200 response).
   ---------------------------------------------------------------- -/

/-- A stored token set as returned by load_tokens; `none` fields are
absent/null keys. -/
structure StoredTokens where
  access : Option String
  refresh : Option String
  expiresAt : Option Int

/-- A successful token-endpoint reply body (r.json()). -/
structure TokenReply where
  access : Option String
  refresh : Option String
  expiresIn : Option Int

/-- Outcome of refresh_access_token: the returned token, whether the
network exchange was attempted, and the token set persisted by
save_tokens on success. -/
structure RefreshOut where
  result : Option String
  networkCalled : Bool
  saved : Option StoredTokens

/-- Truthiness of an optional string (Python `if x:` / `if not x:`). -/
def truthyOS (o : Option String) : Bool :=
  match o with
  | some t => t != ""
  | none => false

/-- refresh_access_token (lines 186-205). -/
def refresh_access_token (now : Int) (stored : Option StoredTokens)
    (reply : Option TokenReply) : RefreshOut :=
  match stored with
  | none => ⟨none, false, none⟩
  | some t =>
    if truthyOS t.access && decide (now < t.expiresAt.getD 0 - 60) then
      ⟨t.access, false, none⟩
    else if truthyOS t.refresh then
      match reply with
      | none => ⟨none, true, none⟩
      | some nt =>
        ⟨nt.access, true, some ⟨nt.access, nt.refresh, some (now + nt.expiresIn.getD 3600)⟩⟩
    else ⟨none, false, none⟩

/- ----------------------------------------------------------------
   Durable cache: the cached_receipts table and cache_receipt_in_db
   (lines 387-411).  The store is a list of rows; the unique index on
   receipt_id is the Nodup hypothesis of the theorems.  The key type is
   generic because the code passes whatever canonical identifier it
   computed (a string from the URL path, or the canonical value in
   fetch_and_cache_receipt).  `now` stands for both datetime.utcnow()
   and the column defaults, a single clock.
   ---------------------------------------------------------------- -/

/-- A row of cached_receipts (lines 73-81). -/
structure Row (κ : Type) where
  receipt_id : κ
  receipt_number : Json
  created_at : Int
  payload : Parsed
  raw : Json
  updated_at : Int

/-- Update the first row matching the key in place (query(...).first()
followed by the mutation at lines 394-396); `none` when no row
matches. -/
def updFirst {κ : Type} [BEq κ] (now : Int) (rid : κ) (payload : Parsed) (raw : Json) :
    List (Row κ) → Option (List (Row κ))
  | [] => none
  | r :: rs =>
    if r.receipt_id == rid then
      some ({ r with payload := payload, raw := raw, updated_at := now } :: rs)
    else
      (updFirst now rid payload raw rs).map (fun l => r :: l)

/-- cache_receipt_in_db (lines 387-411): upsert by receipt_id.  On
insert, receipt_number is taken from the payload's receiptNumber and
created_at is fresh. -/
def cache_receipt_in_db {κ : Type} [BEq κ] (now : Int) (rid : κ) (payload : Parsed)
    (raw : Json) (db : List (Row κ)) : List (Row κ) :=
  match updFirst now rid payload raw db with
  | some db' => db'
  | none =>
    db ++ [{ receipt_id := rid, receipt_number := payload.receiptNumber,
             created_at := now, payload := payload, raw := raw, updated_at := now }]

/- ----------------------------------------------------------------
   Paginated listing: the durable-store branch of GET /receipts
   (lines 589-603).
   ---------------------------------------------------------------- -/

/-- Pagination parameters (lines 589-593): `none` models an argument on
which int() raises, resetting both to (1, 20); otherwise page is
clamped to at least 1 and per_page to at most 50. -/
def pageParams (pageArg perArg : Option Int) : Int × Int :=
  match pageArg, perArg with
  | some p, some pp => (max p 1, min pp 50)
  | _, _ => (1, 20)

/-- Insert a row into a list sorted by updated_at descending. -/
def insertDesc {κ : Type} (r : Row κ) : List (Row κ) → List (Row κ)
  | [] => [r]
  | x :: xs =>
    if x.updated_at ≤ r.updated_at then r :: x :: xs else x :: insertDesc r xs

/-- The ORDER BY updated_at DESC of the cached-receipts query
(line 599). -/
def sortDesc {κ : Type} : List (Row κ) → List (Row κ)
  | [] => []
  | x :: xs => insertDesc x (sortDesc xs)

/-- The durable-store branch of GET /receipts (lines 596-603): items
are the payloads of the requested window of the descending-updated
order; total is the full count. -/
def receipts_db {κ : Type} (store : List (Row κ)) (pageArg perArg : Option Int) :
    List Parsed × Nat :=
  let pp := pageParams pageArg perArg
  (((sortDesc store).drop ((pp.1 - 1) * pp.2).toNat).take pp.2.toNat |>.map (·.payload),
   store.length)

/- ----------------------------------------------------------------
   Webhook: POST /webhook/qbo (lines 676-700).
   ---------------------------------------------------------------- -/

/-- Python str(v) for the identifier-shaped values accepted by
find_ids: strings, ints (including bools, which are ints in Python);
floats and containers are rejected. -/
def idStr : Json → Option String
  | .str s => some s
  | .num n => some (toString n)
  | .bool b => some (if b then "True" else "False")
  | _ => none

/-- Is the key one of entityId / id / entity, case-insensitively? -/
def isIdKey (k : String) : Bool :=
  toLowerStr k == "entityid" || toLowerStr k == "id" || toLowerStr k == "entity"

mutual

/-- find_ids (lines 687-696) before set-deduplication: every discovered
identifier occurrence, in traversal order. -/
def rawIds : Json → List String
  | .obj kvs => rawIdsKvs kvs
  | .arr xs => rawIdsArr xs
  | _ => []

/-- find_ids over an object's fields: a matching key with a str/int
value is collected; any other value is recursed into. -/
def rawIdsKvs : List (String × Json) → List String
  | [] => []
  | (k, v) :: rest =>
    (if isIdKey k then
       match idStr v with
       | some s => [s]
       | none => rawIds v
     else rawIds v) ++ rawIdsKvs rest

/-- find_ids over a list's elements. -/
def rawIdsArr : List Json → List String
  | [] => []
  | x :: xs => rawIds x ++ rawIdsArr xs

end

/-- Set insertion keeping first-occurrence order. -/
def addUnique (acc : List String) (x : String) : List String :=
  if acc.contains x then acc else acc ++ [x]

/-- The `ids` set built by find_ids, as a duplicate-free list (Python
sets are unordered; first-occurrence order is the model's choice and
the claims only concern membership and uniqueness). -/
def webhookIds (j : Json) : List String :=
  (rawIds j).foldl addUnique []

/-- POST /webhook/qbo (lines 676-700): `none` models an unparsable
body (get_json returns None); the response is the status code and the
queued identifier list. -/
def qbo_webhook (body : Option Json) : Nat × List String :=
  match body with
  | none => (400, [])
  | some p => if p.truthy then (200, webhookIds p) else (400, [])

/- ----------------------------------------------------------------
   fetch_and_cache_receipt (lines 435-462).  `resp` is the JSON body
   returned by qbo_get_salesreceipt_by_id (`none` = fetch failed).
   ---------------------------------------------------------------- -/

/-- The state produced by a fetch_and_cache_receipt call: the returned
record, the canonical identifier both writes were keyed by (when they
happened), and the resulting durable store and in-memory cache. -/
structure FetchOut where
  result : Option Parsed
  key : Option Json
  db : List (Row Json)
  inmem : List (Json × Parsed)

/-- Python dict assignment INMEM_CACHE[k] = v. -/
def setAssoc (m : List (Json × Parsed)) (k : Json) (v : Parsed) : List (Json × Parsed) :=
  match m with
  | [] => [(k, v)]
  | (k', v') :: rest => if k' == k then (k, v) :: rest else (k', v') :: setAssoc rest k v

/-- Envelope unwrapping (lines 441-454): a SalesReceipt key wins, then
the first element of a QueryResponse list (Python `(... or [None])[0]`,
whose indexing also accepts a string and raises on other truthy
values), else the body itself. -/
def unwrapEnvelope (q : Json) : Except String Json :=
  match q with
  | .obj kvs =>
    if (jLookup kvs "SalesReceipt").isSome then .ok (dictGet kvs "SalesReceipt")
    else if (jLookup kvs "QueryResponse").isSome then
      match dictGet kvs "QueryResponse" with
      | .obj qkvs =>
        match orJ (dictGet qkvs "SalesReceipt") (.arr [.null]) with
        | .arr (x :: _) => .ok x
        | .arr [] => .ok .null
        | .str t =>
          match t.data with
          | c :: _ => .ok (.str (String.mk [c]))
          | [] => .ok .null
        | _ => .error "TypeError: not subscriptable"
      | _ => .error "AttributeError: get"
    else .ok q
  | _ => .ok q

set_option linter.unusedVariables false in
/-- fetch_and_cache_receipt (lines 435-462).  The receipt_id argument
only selects the external fetch; the canonical identifier both cache
writes are keyed by is recomputed at line 459. -/
def fetch_and_cache_receipt (receiptId : String) (resp : Option Json)
    (nowMs : Nat) (nowIso : String) (nowT : Int)
    (db : List (Row Json)) (im : List (Json × Parsed)) : Except String FetchOut :=
  match resp with
  | none => .ok ⟨none, none, db, im⟩
  | some q =>
    match unwrapEnvelope q with
    | .error e => .error e
    | .ok raw =>
      if !raw.truthy then .ok ⟨none, none, db, im⟩
      else
        match raw with
        | .obj pkvs =>
          match parse_salesreceipt nowMs nowIso pkvs with
          | .error e => .error e
          | .ok parsed =>
            let canonical :=
              orJ parsed.receiptNumber (orJ (dictGet pkvs "DocNumber") (dictGet pkvs "Id"))
            .ok ⟨some parsed, some canonical,
                 cache_receipt_in_db nowT canonical parsed raw db,
                 setAssoc im canonical parsed⟩
        | _ => .error "AttributeError: get"

/- ----------------------------------------------------------------
   Helper lemmas.
   ---------------------------------------------------------------- -/

/-- `List.contains` decides membership (strings compare lawfully). -/
lemma contains_eq_mem_str (acc : List String) (y : String) :
    acc.contains y = true ↔ y ∈ acc := by
  simp [List.contains, List.elem_iff]

/-- Membership after a set insertion. -/
lemma mem_addUnique (acc : List String) (y x : String) :
    x ∈ addUnique acc y ↔ x ∈ acc ∨ x = y := by
  unfold addUnique
  by_cases h : y ∈ acc
  · rw [if_pos ((contains_eq_mem_str acc y).mpr h)]
    constructor
    · exact .inl
    · rintro (hx | rfl)
      · exact hx
      · exact h
  · rw [if_neg (fun hc => h ((contains_eq_mem_str acc y).mp hc))]
    simp only [List.mem_append, List.mem_singleton]

/-- Set insertion preserves distinctness. -/
lemma nodup_addUnique (acc : List String) (y : String) (h : acc.Nodup) :
    (addUnique acc y).Nodup := by
  unfold addUnique
  by_cases hc : y ∈ acc
  · rw [if_pos ((contains_eq_mem_str acc y).mpr hc)]; exact h
  · rw [if_neg (fun hb => hc ((contains_eq_mem_str acc y).mp hb))]
    exact List.nodup_append.mpr ⟨h, List.nodup_singleton y, by simpa using hc⟩

/-- Folding set insertions keeps the accumulator distinct. -/
lemma nodup_foldl_addUnique (l : List String) :
    ∀ acc : List String, acc.Nodup → (l.foldl addUnique acc).Nodup := by
  induction l with
  | nil => intro acc h; exact h
  | cons y ys ih => intro acc h; exact ih (addUnique acc y) (nodup_addUnique acc y h)

/-- Membership in a fold of set insertions. -/
lemma mem_foldl_addUnique (l : List String) :
    ∀ (acc : List String) (x : String), x ∈ l.foldl addUnique acc ↔ x ∈ acc ∨ x ∈ l := by
  induction l with
  | nil => intro acc x; simp
  | cons y ys ih =>
    intro acc x
    rw [List.foldl_cons, ih (addUnique acc y) x, mem_addUnique]
    simp only [List.mem_cons]
    tauto

/- ----------------------------------------------------------------
   Claim C10: the API-key gate.
   ---------------------------------------------------------------- -/

/-- C10 counterexample: with RECEIPTS_API_KEY set to the empty string,
a request with no x-app-key header and no api_key query parameter is
accepted, although neither credential equals the configured key — the
claim demands a 403 whenever the key is set and no credential matches. -/
theorem claim_C10_counterexample :
    require_api_key (some "") none none = true ∧
    ¬((none : Option String) = some "" ∨ (none : Option String) = some "") :=
  ⟨rfl, by simp⟩

/-- C10 (amended): when RECEIPTS_API_KEY is unset or empty,
require_api_key accepts every request; when it is set to a non-empty
value, a request is accepted exactly when the x-app-key header or the
api_key query parameter equals it; gated endpoints answer 403 exactly
when require_api_key rejects. -/
theorem claim_C10 :
    (∀ h q : Option String, require_api_key none h q = true) ∧
    (∀ h q : Option String, require_api_key (some "") h q = true) ∧
    (∀ (k : String) (h q : Option String), k ≠ "" →
      (require_api_key (some k) h q = true ↔ h = some k ∨ q = some k)) ∧
    (∀ (key h q : Option String),
      gateReject key h q = none ↔ require_api_key key h q = true) := by
  refine ⟨fun h q => rfl, fun h q => rfl, ?_, ?_⟩
  · intro k h q hk
    simp [require_api_key, hk]
  · intro key h q
    unfold gateReject
    by_cases hr : require_api_key key h q <;> simp [hr]

/-- C10 witness: with key "sekret", a matching header is accepted and a
bare request is rejected. -/
theorem claim_C10_witness :
    require_api_key (some "sekret") (some "sekret") none = true ∧
    require_api_key (some "sekret") none none = false :=
  ⟨(claim_C10.2.2.1 "sekret" (some "sekret") none (by decide)).mpr (Or.inl rfl), rfl⟩

/- ----------------------------------------------------------------
   Claim C6: the token refresh margin.
   ---------------------------------------------------------------- -/

/-- C6 counterexample: a stored set with a non-empty access token,
expiry 30 seconds ahead and no refresh token returns none with no
network call, although the claim demands a refresh exchange attempt
whenever the expiry is not more than 60 seconds away. -/
theorem claim_C6_counterexample :
    refresh_access_token 0 (some ⟨some "tok", none, some 30⟩) none =
      ⟨none, false, none⟩ ∧ ¬((0 : Int) < 30 - 60) :=
  ⟨rfl, by decide⟩

/-- C6 (amended): with a stored non-empty access token, the token is
returned unchanged with no network call whenever now is more than 60
seconds before the recorded expiry; otherwise a refresh exchange is
attempted provided a non-empty refresh token is stored. -/
theorem claim_C6 :
    (∀ (now : Int) (t : StoredTokens) (reply : Option TokenReply) (a : String),
      t.access = some a → a ≠ "" → now < t.expiresAt.getD 0 - 60 →
      refresh_access_token now (some t) reply = ⟨some a, false, none⟩) ∧
    (∀ (now : Int) (t : StoredTokens) (reply : Option TokenReply) (a r : String),
      t.access = some a → ¬(now < t.expiresAt.getD 0 - 60) →
      t.refresh = some r → r ≠ "" →
      (refresh_access_token now (some t) reply).networkCalled = true) := by
  constructor
  · intro now t reply a ha hne hfresh
    simp only [refresh_access_token, ha]
    simp [truthyOS, hne, hfresh]
  · intro now t reply a r ha hstale hr hrne
    have h1 : (truthyOS t.access && decide (now < t.expiresAt.getD 0 - 60)) = false := by
      simp [hstale]
    have h2 : truthyOS t.refresh = true := by rw [hr]; simp [truthyOS, hrne]
    simp only [refresh_access_token, h1, h2, Bool.false_eq_true, if_false, if_true]
    cases reply <;> rfl

/-- C6 witness: expiry 120 seconds ahead returns the stored token with
no call; expiry 30 seconds ahead (with a refresh token) attempts the
exchange. -/
theorem claim_C6_witness :
    refresh_access_token 0 (some ⟨some "tok", some "ref", some 120⟩) none =
      ⟨some "tok", false, none⟩ ∧
    (refresh_access_token 0 (some ⟨some "tok", some "ref", some 30⟩) none).networkCalled
      = true :=
  ⟨claim_C6.1 0 ⟨some "tok", some "ref", some 120⟩ none "tok" rfl (by decide) (by decide),
   claim_C6.2 0 ⟨some "tok", some "ref", some 30⟩ none "tok" "ref" rfl (by decide) rfl
     (by decide)⟩

/- ----------------------------------------------------------------
   Claim C3: the webhook endpoint.
   ---------------------------------------------------------------- -/

/-- C3 counterexample: the empty object is parsable JSON, yet the
endpoint answers 400 (get_json succeeds but the body is falsy), where
the claim demands 200 for every parsable body. -/
theorem claim_C3_counterexample :
    qbo_webhook (some (.obj [])) = (400, []) ∧ (400 : Nat) ≠ 200 :=
  ⟨rfl, by decide⟩

/-- C3 (amended): the webhook answers 400 exactly when the body is
unparsable or parses to a falsy value (null, false, 0, empty string,
empty array, empty object); for every truthy body it answers 200 with
the discovered identifiers, each enqueued exactly once (the queued list
is duplicate-free and carries an identifier exactly when some
occurrence is discovered by the recursive scan). -/
theorem claim_C3 :
    (qbo_webhook none = (400, [])) ∧
    (∀ p : Json, p.truthy = false → qbo_webhook (some p) = (400, [])) ∧
    (∀ p : Json, p.truthy = true →
      qbo_webhook (some p) = (200, webhookIds p) ∧
      (webhookIds p).Nodup ∧
      ∀ x, x ∈ webhookIds p ↔ x ∈ rawIds p) := by
  refine ⟨rfl, ?_, ?_⟩
  · intro p hp; simp [qbo_webhook, hp]
  · intro p hp
    refine ⟨by simp [qbo_webhook, hp], nodup_foldl_addUnique _ _ (List.nodup_nil), ?_⟩
    intro x
    rw [webhookIds, mem_foldl_addUnique]
    simp

/-- The doubled-identifier payload of the C3 witness. -/
def c3Payload : Json :=
  .obj [("eventNotifications",
    .arr [.obj [("entityId", .str "609")],
          .obj [("dataChangeEvent", .obj [("entityId", .str "609")])]])]

/-- C3 witness: a payload containing entityId "609" twice at different
depths is answered 200 and enqueues "609" exactly once. -/
theorem claim_C3_witness :
    (qbo_webhook (some c3Payload)).1 = 200 ∧
    (webhookIds c3Payload).Nodup ∧
    webhookIds c3Payload = ["609"] := by
  have h := claim_C3.2.2 c3Payload (by decide)
  refine ⟨by rw [h.1], h.2.1, ?_⟩
  simp [webhookIds, c3Payload, rawIds, rawIdsKvs, rawIdsArr, isIdKey, idStr,
    addUnique, toLowerStr]

/- ----------------------------------------------------------------
   Claim C2: numeric defaults of the normalizer.
   ---------------------------------------------------------------- -/

/-- C2 counterexample: a document whose single line has no detail at
all normalizes to quantity 1, not the zero the claim states for every
numeric field. -/
theorem claim_C2_counterexample :
    parse_salesreceipt 0 "" [("Line", .arr [.obj []])] =
      .ok { receiptNumber := .str "R-0", createdAt := .str "", customerName := .str "",
            customerContact := .str "", servedBy := .str "",
            items := [{ name := .str "", description := .str "", quantity := .num 1,
                        unit_price := .num 0, amount := .num 0, tax_code := .null }],
            taxes := [], payments := [], total := .num 0 } ∧
    Json.num 1 ≠ Json.num 0 :=
  ⟨rfl, by simp⟩

/-- C2 (amended): when the corresponding upstream field is absent, a
line item's unit price and amount, a tax line's amount, a payment's
amount, and the total default to zero, while a line item's quantity
defaults to one. -/
theorem claim_C2 :
    (∀ (lkvs dkvs : List (String × Json)) (it : Item),
      itemOfLine (.obj lkvs) = .ok it →
      orJ (dictGet lkvs "SalesItemLineDetail") (.obj []) = .obj dkvs →
      jLookup dkvs "Qty" = none → jLookup dkvs "Quantity" = none →
      it.quantity = .num 1) ∧
    (∀ (lkvs dkvs : List (String × Json)) (it : Item),
      itemOfLine (.obj lkvs) = .ok it →
      orJ (dictGet lkvs "SalesItemLineDetail") (.obj []) = .obj dkvs →
      jLookup dkvs "UnitPrice" = none → it.unit_price = .num 0) ∧
    (∀ (lkvs : List (String × Json)) (it : Item),
      itemOfLine (.obj lkvs) = .ok it →
      jLookup lkvs "Amount" = none → it.amount = .num 0) ∧
    (∀ (kvs : List (String × Json)) (t : TaxLineR),
      taxOfLine (.obj kvs) = .ok t →
      jLookup kvs "Amount" = none → t.amount = .num 0) ∧
    (∀ (kvs : List (String × Json)) (p : PaymentR),
      paymentOf (.obj kvs) = .ok p →
      jLookup kvs "Amount" = none → p.amount = .num 0) ∧
    (∀ s : List (String × Json),
      jLookup s "TotalAmt" = none → jLookup s "Total" = none → totalOf s = .num 0) := by
  refine ⟨?_, ?_, ?_, ?_, ?_, ?_⟩
  · intro lkvs dkvs it hok hd hq1 hq2
    cases horj : orJ (dictGet dkvs "ItemRef") (.obj []) <;>
      simp only [itemOfLine, hd, horj, reduceCtorEq, Except.ok.injEq] at hok
    subst hok
    simp [dictGet, hq1, hq2, orJ, Json.truthy]
  · intro lkvs dkvs it hok hd hup
    cases horj : orJ (dictGet dkvs "ItemRef") (.obj []) <;>
      simp only [itemOfLine, hd, horj, reduceCtorEq, Except.ok.injEq] at hok
    subst hok
    simp [dictGet, hup, orJ, Json.truthy]
  · intro lkvs it hok ham
    cases hd : orJ (dictGet lkvs "SalesItemLineDetail") (.obj []) <;>
      simp only [itemOfLine, hd, reduceCtorEq] at hok
    rename_i dkvs
    cases horj : orJ (dictGet dkvs "ItemRef") (.obj []) <;>
      simp only [horj, reduceCtorEq, Except.ok.injEq] at hok
    subst hok
    simp [dictGet, ham, orJ, Json.truthy]
  · intro kvs t hok ham
    simp only [taxOfLine, Except.ok.injEq] at hok
    subst hok
    simp [dictGet, ham, orJ, Json.truthy]
  · intro kvs p hok ham
    simp only [paymentOf, Except.ok.injEq] at hok
    subst hok
    simp [dictGet, ham, orJ, Json.truthy]
  · intro s h1 h2
    simp [totalOf, dictGet, h1, h2, orJ, Json.truthy]

/-- C2 witness: the empty line, tax line, payment and document take the
defaults 1, 0, 0, 0, 0. -/
theorem claim_C2_witness :
    (∃ it : Item, itemOfLine (.obj []) = .ok it ∧
      it.quantity = .num 1 ∧ it.unit_price = .num 0 ∧ it.amount = .num 0) ∧
    (∃ t : TaxLineR, taxOfLine (.obj []) = .ok t ∧ t.amount = .num 0) ∧
    (∃ p : PaymentR, paymentOf (.obj []) = .ok p ∧ p.amount = .num 0) ∧
    totalOf [] = .num 0 := by
  refine ⟨⟨_, rfl, claim_C2.1 [] [] _ rfl rfl rfl rfl,
           claim_C2.2.1 [] [] _ rfl rfl rfl,
           claim_C2.2.2.1 [] _ rfl rfl⟩,
          ⟨_, rfl, claim_C2.2.2.2.1 [] _ rfl rfl⟩,
          ⟨_, rfl, claim_C2.2.2.2.2.1 [] _ rfl rfl⟩,
          claim_C2.2.2.2.2.2 [] rfl rfl⟩

/- ----------------------------------------------------------------
   Claims C4 and C5: the served-by fallback chain.
   ---------------------------------------------------------------- -/

/-- Does one of the four reference fields hold a dict with a truthy
name?  (The scope of claim C4.) -/
def hasRefName (s : List (String × Json)) : Bool :=
  ["LocationRef", "Location", "ClassRef", "DepartmentRef"].any fun f =>
    match dictGet s f with
    | .obj kvs => (dictGet kvs "name").truthy
    | _ => false

/-- Replacing (or adding) one key of a document, used to state that a
result does not depend on that key. -/
def setKey (s : List (String × Json)) (k : String) (v : Json) : List (String × Json) :=
  match s with
  | [] => [(k, v)]
  | (k', v') :: rest => if k' == k then (k, v) :: rest else (k', v') :: setKey rest k v

/-- Unfolding one cons cell of a lookup. -/
lemma jLookup_cons (ka : String) (va : Json) (t : List (String × Json)) (k' : String) :
    jLookup ((ka, va) :: t) k' = if ka == k' then some va else jLookup t k' := by
  simp only [jLookup, List.find?]
  cases h : ka == k' <;> simp [h]

/-- Lookup of a different key is unaffected by setKey. -/
lemma jLookup_setKey_ne (s : List (String × Json)) (k : String) (v : Json)
    (k' : String) (h : k' ≠ k) : jLookup (setKey s k v) k' = jLookup s k' := by
  have hkk : (k == k') = false := beq_eq_false_iff_ne.mpr (fun he => h he.symm)
  induction s with
  | nil =>
    simp [setKey, jLookup_cons, hkk]
  | cons a rest ih =>
    obtain ⟨ka, va⟩ := a
    by_cases hk : ka = k
    · subst hk
      have hb : (ka == ka) = true := by simp
      simp only [setKey, hb, if_true, jLookup_cons, hkk, Bool.false_eq_true, if_false]
    · have hb : (ka == k) = false := beq_eq_false_iff_ne.mpr hk
      simp only [setKey, hb, Bool.false_eq_true, if_false, jLookup_cons]
      cases hkc : ka == k' <;> simp [ih]

/-- dictGet version of the previous lemma. -/
lemma dictGet_setKey_ne (s : List (String × Json)) (k : String) (v : Json)
    (k' : String) (h : k' ≠ k) : dictGet (setKey s k v) k' = dictGet s k' := by
  unfold dictGet
  rw [jLookup_setKey_ne s k v k' h]

/-- The reference loop only reads its listed fields. -/
lemma servedByRefsLoop_setKey (s : List (String × Json)) (k : String) (v : Json) :
    ∀ (fields : List String), (∀ f ∈ fields, f ≠ k) →
    ∀ acc, servedByRefsLoop (setKey s k v) fields acc = servedByRefsLoop s fields acc := by
  intro fields
  induction fields with
  | nil => intro _ acc; rfl
  | cons f fs ih =>
    intro hf acc
    have h1 : dictGet (setKey s k v) f = dictGet s f :=
      dictGet_setKey_ne s k v f (hf f (List.mem_cons_self f fs))
    simp only [servedByRefsLoop, h1]
    by_cases ht : (refResolve (dictGet s f) acc).truthy
    · simp [ht]
    · simp only [ht, if_false, Bool.false_eq_true]
      exact ih (fun g hg => hf g (List.mem_cons_of_mem f hg)) _

/-- Fallback (a) does not read the customer memo. -/
lemma servedByRefs_setKey_memo (s : List (String × Json)) (m : Json) :
    servedByRefs (setKey s "CustomerMemo" m) = servedByRefs s := by
  unfold servedByRefs
  refine servedByRefsLoop_setKey s "CustomerMemo" m _ ?_ _
  intro f hf
  simp only [List.mem_cons, List.mem_singleton] at hf
  rcases hf with rfl | rfl | rfl | rfl | h
  · decide
  · decide
  · decide
  · decide
  · cases h

/-- A truthy reference name makes the whole reference loop truthy. -/
lemma servedByRefsLoop_truthy_of_name (s : List (String × Json)) :
    ∀ (fields : List String) (acc : Json),
      (fields.any fun f =>
        match dictGet s f with
        | .obj kvs => (dictGet kvs "name").truthy
        | _ => false) = true →
      (servedByRefsLoop s fields acc).truthy = true := by
  intro fields
  induction fields with
  | nil => intro acc h; cases h
  | cons f fs ih =>
    intro acc h
    rw [List.any_cons, Bool.or_eq_true] at h
    rcases h with hf | hfs
    · have hres : (refResolve (dictGet s f) acc).truthy = true := by
        revert hf
        cases hd : dictGet s f <;> intro hf
        · exact absurd hf Bool.false_ne_true
        · exact absurd hf Bool.false_ne_true
        · exact absurd hf Bool.false_ne_true
        · exact absurd hf Bool.false_ne_true
        · exact absurd hf Bool.false_ne_true
        · exact absurd hf Bool.false_ne_true
        · rename_i kvs
          have hf2 : (dictGet kvs "name").truthy = true := hf
          simp [refResolve, orJ, hf2]
      simp [servedByRefsLoop, hres]
    · by_cases ht : (refResolve (dictGet s f) acc).truthy
      · simp [servedByRefsLoop, ht]
      · simp only [servedByRefsLoop, ht, if_false, Bool.false_eq_true]
        exact ih _ hfs

/-- When fallback (a) yields a truthy value, it is the served-by. -/
lemma servedByOf_of_refs_truthy (s : List (String × Json))
    (h : (servedByRefs s).truthy = true) : servedByOf s = .ok (servedByRefs s) := by
  simp [servedByOf, h]

/-- Inverting a successful parse on the served-by field: the record's
servedBy is exactly what step 5 produced. -/
lemma parse_ok_servedBy (nowMs : Nat) (nowIso : String) (s : List (String × Json))
    (p : Parsed) (h : parse_salesreceipt nowMs nowIso s = .ok p) :
    servedByOf s = .ok p.servedBy := by
  cases h1 : createdAtOf nowIso s <;>
    simp only [parse_salesreceipt, h1, reduceCtorEq] at h
  cases h2 : customerNameOf s <;> simp only [h2, reduceCtorEq] at h
  cases h3 : contactOf s <;> simp only [h3, reduceCtorEq] at h
  cases h4 : servedByOf s <;> simp only [h4, reduceCtorEq] at h
  cases h5 : asIterable (orJ (dictGetD s "Line" (.arr [])) (.arr [])) <;>
    simp only [h5, reduceCtorEq] at h
  rename_i lines
  cases h6 : lines.mapM itemOfLine <;> simp only [h6, reduceCtorEq] at h
  cases h7 : asIterable (orJ (dictGetD s "TaxLine" (.arr [])) (.arr [])) <;>
    simp only [h7, reduceCtorEq] at h
  rename_i tlines
  cases h8 : tlines.mapM taxOfLine <;> simp only [h8, reduceCtorEq] at h
  cases h9 : asIterable (orJ (dictGetD s "Payment" (.arr [])) (.arr [])) <;>
    simp only [h9, reduceCtorEq] at h
  rename_i ps
  cases h10 : ps.mapM paymentOf <;> simp only [h10, reduceCtorEq, Except.ok.injEq] at h
  subst h
  rfl

/-- C4: a document in which one of LocationRef / Location / ClassRef /
DepartmentRef is a dict with a non-empty name resolves served-by to the
result of the reference chain, independently of the customer memo: the
same value results whatever CustomerMemo is replaced with, and a
successful parse carries it.  Fallback (a) strictly precedes (b). -/
theorem claim_C4 (s : List (String × Json)) (m : Json) (h : hasRefName s = true) :
    servedByOf s = .ok (servedByRefs s) ∧
    servedByOf (setKey s "CustomerMemo" m) = .ok (servedByRefs s) ∧
    (∀ (nowMs : Nat) (nowIso : String) (p : Parsed),
      parse_salesreceipt nowMs nowIso s = .ok p → p.servedBy = servedByRefs s) := by
  have htr : (servedByRefs s).truthy = true :=
    servedByRefsLoop_truthy_of_name s _ _ h
  have h1 : servedByOf s = .ok (servedByRefs s) := servedByOf_of_refs_truthy s htr
  refine ⟨h1, ?_, ?_⟩
  · have htr2 : (servedByRefs (setKey s "CustomerMemo" m)).truthy = true := by
      rw [servedByRefs_setKey_memo]; exact htr
    rw [servedByOf_of_refs_truthy _ htr2, servedByRefs_setKey_memo]
  · intro nowMs nowIso p hp
    have h2 := parse_ok_servedBy nowMs nowIso s p hp
    rw [h1] at h2
    exact Except.ok.inj h2.symm

/-- C4 witness: LocationRef name "Front Desk" wins over a memo reading
"served by Bob", and over any replacement memo. -/
theorem claim_C4_witness :
    servedByOf [("LocationRef", .obj [("name", .str "Front Desk")]),
                ("CustomerMemo", .obj [("value", .str "served by Bob")])]
      = .ok (.str "Front Desk") ∧
    servedByOf (setKey [("LocationRef", .obj [("name", .str "Front Desk")]),
                        ("CustomerMemo", .obj [("value", .str "served by Bob")])]
                  "CustomerMemo" (.obj [("value", .str "served by Mallory")]))
      = .ok (.str "Front Desk") := by
  have h := claim_C4
    [("LocationRef", .obj [("name", .str "Front Desk")]),
     ("CustomerMemo", .obj [("value", .str "served by Bob")])]
    (.obj [("value", .str "served by Mallory")]) (by decide)
  exact ⟨h.1, h.2.1⟩

/-- The memo line loop takes the first marker line. -/
lemma memoLineLoop_eq_find (lines : List String) (acc : Json) :
    memoLineLoop lines acc =
      match lines.find? (fun l => strHasSub (toLowerStr l) "served by") with
      | some l => .str (markerExtract l)
      | none => acc := by
  induction lines with
  | nil => rfl
  | cons l ls ih =>
    by_cases hl : strHasSub (toLowerStr l) "served by" = true
    · simp only [memoLineLoop, List.find?, hl, if_true]
    · have hb : strHasSub (toLowerStr l) "served by" = false := by simpa using hl
      simp only [memoLineLoop, List.find?, hb, Bool.false_eq_true, if_false]
      exact ih

/-- C5 counterexample: with no reference fields, memo "Served by:"
(colon, empty remainder) and a custom field named "Branch code", the
code resolves served-by to the custom field's "HQ", not to the empty
after-colon text the claim requires. -/
theorem claim_C5_counterexample :
    servedByOf [("CustomerMemo", .obj [("value", .str "Served by:")]),
      ("CustomField", .arr [.obj [("Name", .str "Branch code"),
                                  ("StringValue", .str "HQ")]])]
      = .ok (.str "HQ") ∧
    markerExtract "Served by:" = "" ∧ ("HQ" : String) ≠ "" :=
  ⟨rfl, rfl, by decide⟩

/-- C5 (amended): with no truthy reference chain, a non-empty stripped
memo containing the marker, and first marker line `line`, served-by is
markerExtract line — the text after the first colon of the line,
stripped, when the line has a colon, else the lowered line with the
marker removed, stripped and title-cased — provided that extract is
non-empty (an empty extract falls through to the custom-field
fallback). -/
theorem claim_C5 (s : List (String × Json)) (m line : String)
    (hrefs : (servedByRefs s).truthy = false)
    (hm : memoValue s = .ok m) (hne : m ≠ "")
    (hmark : strHasSub (toLowerStr m) "served by" = true)
    (hline : (pySplitlines m).find? (fun l => strHasSub (toLowerStr l) "served by")
      = some line)
    (hex : markerExtract line ≠ "") :
    servedByOf s = .ok (.str (markerExtract line)) ∧
    (∀ (nowMs : Nat) (nowIso : String) (p : Parsed),
      parse_salesreceipt nowMs nowIso s = .ok p →
      p.servedBy = .str (markerExtract line)) := by
  have hloop : memoLineLoop (pySplitlines m) (servedByRefs s) = .str (markerExtract line) := by
    rw [memoLineLoop_eq_find, hline]
  have hmemo : servedByMemo s (servedByRefs s) = .ok (.str (markerExtract line)) := by
    rw [servedByMemo, hm]
    have : (m == "") = false := by simpa using hne
    simp only [this, Bool.false_eq_true, if_false, hmark, if_true, hloop]
  have h1 : servedByOf s = .ok (.str (markerExtract line)) := by
    have htt : (Json.str (markerExtract line)).truthy = true := by
      simp [Json.truthy, hex]
    simp only [servedByOf, hrefs, Bool.false_eq_true, if_false, hmemo, htt, if_true]
  refine ⟨h1, ?_⟩
  intro nowMs nowIso p hp
  have h2 := parse_ok_servedBy nowMs nowIso s p hp
  rw [h1] at h2
  exact Except.ok.inj h2.symm

/-- C5 witness: memo "Served by: Jane" resolves to "Jane" via the colon
split; memo "served by jane" (no colon) resolves to the title-cased
"Jane". -/
theorem claim_C5_witness :
    servedByOf [("CustomerMemo", .obj [("value", .str "Served by: Jane")])]
      = .ok (.str "Jane") ∧
    servedByOf [("CustomerMemo", .obj [("value", .str "served by jane")])]
      = .ok (.str "Jane") := by
  constructor
  · exact (claim_C5 [("CustomerMemo", .obj [("value", .str "Served by: Jane")])]
      "Served by: Jane" "Served by: Jane" rfl rfl (by decide) rfl rfl (by decide)).1
  · exact (claim_C5 [("CustomerMemo", .obj [("value", .str "served by jane")])]
      "served by jane" "served by jane" rfl rfl (by decide) rfl rfl (by decide)).1

/- ----------------------------------------------------------------
   Claim C7: cache upsert idempotence.
   ---------------------------------------------------------------- -/

/-- Appending preserves the cons form of cache when the head row does
not match. -/
lemma cache_cons_ne {κ : Type} [BEq κ] (now : Int) (rid : κ) (p : Parsed) (r : Json)
    (x : Row κ) (xs : List (Row κ)) (hx : (x.receipt_id == rid) = false) :
    cache_receipt_in_db now rid p r (x :: xs) =
      x :: cache_receipt_in_db now rid p r xs := by
  cases hu : updFirst now rid p r xs <;>
    simp [cache_receipt_in_db, updFirst, hx, hu]

/-- A list with no matching key filters to nothing. -/
lemma filter_keyEq_nil {κ : Type} [BEq κ] [LawfulBEq κ] (rid : κ) :
    ∀ xs : List (Row κ), rid ∉ xs.map (·.receipt_id) →
      xs.filter (fun row => row.receipt_id == rid) = [] := by
  intro xs
  induction xs with
  | nil => intro _; rfl
  | cons x rest ih =>
    intro h
    simp only [List.map_cons, List.mem_cons] at h
    push_neg at h
    have hb : (x.receipt_id == rid) = false :=
      beq_eq_false_iff_ne.mpr (fun he => h.1 he.symm)
    simp only [List.filter_cons, hb, Bool.false_eq_true, if_false]
    exact ih h.2

/-- One upsert: the keys stay the same (update) or gain exactly the new
key (insert), and filtering by the key yields exactly the upserted
row — its payload/raw/updated fresh, its number and created stamp taken
from the pre-existing row when there is one. -/
lemma cache_spec {κ : Type} [BEq κ] [LawfulBEq κ] (now : Int) (rid : κ) (p : Parsed)
    (r : Json) :
    ∀ db : List (Row κ), (db.map (·.receipt_id)).Nodup →
      ((cache_receipt_in_db now rid p r db).map (·.receipt_id) = db.map (·.receipt_id)
         ∧ rid ∈ db.map (·.receipt_id) ∨
       (cache_receipt_in_db now rid p r db).map (·.receipt_id)
           = db.map (·.receipt_id) ++ [rid]
         ∧ rid ∉ db.map (·.receipt_id)) ∧
      (cache_receipt_in_db now rid p r db).filter (fun row => row.receipt_id == rid) =
        [{ receipt_id := rid,
           receipt_number :=
             match db.find? (fun row => row.receipt_id == rid) with
             | some r0 => r0.receipt_number
             | none => p.receiptNumber,
           created_at :=
             match db.find? (fun row => row.receipt_id == rid) with
             | some r0 => r0.created_at
             | none => now,
           payload := p, raw := r, updated_at := now }] := by
  intro db
  induction db with
  | nil =>
    intro _
    refine ⟨Or.inr ⟨rfl, by simp⟩, ?_⟩
    simp [cache_receipt_in_db, updFirst, List.filter]
  | cons x xs ih =>
    intro hnd
    rw [List.map_cons, List.nodup_cons] at hnd
    cases hx : x.receipt_id == rid
    · have hrec := ih hnd.2
      rw [cache_cons_ne now rid p r x xs hx]
      constructor
      · rcases hrec.1 with ⟨hkeys, hmem⟩ | ⟨hkeys, hmem⟩
        · exact Or.inl ⟨by simp [hkeys], by simp [hmem]⟩
        · refine Or.inr ⟨by simp [hkeys], ?_⟩
          have hne : rid ≠ x.receipt_id := fun he => beq_eq_false_iff_ne.mp hx he.symm
          simp only [List.map_cons, List.mem_cons]
          push_neg
          exact ⟨hne, hmem⟩
      · simp only [List.filter_cons, hx, Bool.false_eq_true, if_false,
          List.find?_cons, hx]
        exact hrec.2
    · have heq : x.receipt_id = rid := eq_of_beq hx
      have hfind : (x :: xs).find? (fun row => row.receipt_id == rid) = some x := by
        simp [List.find?_cons, hx]
      have hupd : updFirst now rid p r (x :: xs) =
          some ({ x with payload := p, raw := r, updated_at := now } :: xs) := by
        simp [updFirst, hx]
      have hcache : cache_receipt_in_db now rid p r (x :: xs) =
          { x with payload := p, raw := r, updated_at := now } :: xs := by
        simp [cache_receipt_in_db, hupd]
      constructor
      · exact Or.inl ⟨by simp [hcache], by simp [← heq]⟩
      · rw [hcache]
        simp only [List.filter_cons, hx, if_true, hfind]
        rw [filter_keyEq_nil rid xs (by rw [← heq]; exact hnd.1)]
        have : ({ x with payload := p, raw := r, updated_at := now } : Row κ) =
            { receipt_id := rid, receipt_number := x.receipt_number,
              created_at := x.created_at, payload := p, raw := r, updated_at := now } := by
          cases x
          simp_all
        rw [this]

/-- A singleton filter pins down find?. -/
lemma find?_of_filter_singleton {α : Type} (pr : α → Bool) :
    ∀ (l : List α) (x : α), l.filter pr = [x] → l.find? pr = some x := by
  intro l
  induction l with
  | nil => intro x h; cases h
  | cons a as ih =>
    intro x h
    cases ha : pr a
    · rw [List.filter_cons, ha] at h
      simp only [Bool.false_eq_true, if_false] at h
      rw [List.find?_cons, ha]
      exact ih x h
    · rw [List.filter_cons, ha] at h
      simp only [if_true] at h
      injection h with h1 h2
      rw [List.find?_cons, ha, h1]

/-- C7: two sequential upserts under the same identifier leave exactly
one row keyed by it, carrying the second payload and raw, the second
updated stamp, and the first (or pre-existing) created stamp; the
unique-key invariant of the table is preserved. -/
theorem claim_C7 {κ : Type} [BEq κ] [LawfulBEq κ] (db : List (Row κ)) (rid : κ)
    (p1 p2 : Parsed) (r1 r2 : Json) (t1 t2 : Int)
    (h : (db.map (·.receipt_id)).Nodup) :
    (cache_receipt_in_db t2 rid p2 r2 (cache_receipt_in_db t1 rid p1 r1 db)).filter
        (fun row => row.receipt_id == rid) =
      [{ receipt_id := rid,
         receipt_number :=
           match db.find? (fun row => row.receipt_id == rid) with
           | some r0 => r0.receipt_number
           | none => p1.receiptNumber,
         created_at :=
           match db.find? (fun row => row.receipt_id == rid) with
           | some r0 => r0.created_at
           | none => t1,
         payload := p2, raw := r2, updated_at := t2 }] ∧
    ((cache_receipt_in_db t2 rid p2 r2 (cache_receipt_in_db t1 rid p1 r1 db)).map
        (·.receipt_id)).Nodup := by
  have h1 := cache_spec t1 rid p1 r1 db h
  have hnd1 : ((cache_receipt_in_db t1 rid p1 r1 db).map (·.receipt_id)).Nodup := by
    rcases h1.1 with ⟨hkeys, _⟩ | ⟨hkeys, hni⟩
    · rw [hkeys]; exact h
    · rw [hkeys]
      exact List.nodup_append.mpr ⟨h, List.nodup_singleton rid, by simpa using hni⟩
  have hfind1 := find?_of_filter_singleton _ _ _ h1.2
  have h2 := cache_spec t2 rid p2 r2 (cache_receipt_in_db t1 rid p1 r1 db) hnd1
  constructor
  · rw [h2.2, hfind1]
  · rcases h2.1 with ⟨hkeys, _⟩ | ⟨hkeys, hni⟩
    · rw [hkeys]; exact hnd1
    · rw [hkeys]
      exact List.nodup_append.mpr ⟨hnd1, List.nodup_singleton rid, by simpa using hni⟩

/-- A sample canonical record used by concrete store instances. -/
def samplePayloadA : Parsed :=
  { receiptNumber := .str "N1", createdAt := .null, customerName := .null,
    customerContact := .null, servedBy := .null, items := [], taxes := [],
    payments := [], total := .num 0 }

/-- A second sample canonical record, differing from the first. -/
def samplePayloadB : Parsed :=
  { receiptNumber := .str "N2", createdAt := .null, customerName := .null,
    customerContact := .null, servedBy := .null, items := [], taxes := [],
    payments := [], total := .num 7 }

/-- C7 witness: from the empty store, put("A1", p1) then put("A1", p2)
leaves exactly the row keyed "A1" with payload p2, created stamp 10 and
updated stamp 20. -/
theorem claim_C7_witness :
    (cache_receipt_in_db 20 "A1" samplePayloadB (.str "raw2")
        (cache_receipt_in_db 10 "A1" samplePayloadA (.str "raw1") [])).filter
        (fun row => row.receipt_id == "A1") =
      [{ receipt_id := "A1", receipt_number := .str "N1", created_at := 10,
         payload := samplePayloadB, raw := .str "raw2", updated_at := 20 }] := by
  have h := claim_C7 ([] : List (Row String)) "A1" samplePayloadA samplePayloadB
    (.str "raw1") (.str "raw2") 10 20 (by simp)
  exact h.1

/- ----------------------------------------------------------------
   Claim C9: pagination of the durable-store listing.
   ---------------------------------------------------------------- -/

/-- Inserting grows the length by one. -/
lemma length_insertDesc {κ : Type} (r : Row κ) :
    ∀ l : List (Row κ), (insertDesc r l).length = l.length + 1 := by
  intro l
  induction l with
  | nil => rfl
  | cons x xs ih =>
    by_cases hx : x.updated_at ≤ r.updated_at
    · simp [insertDesc, hx]
    · simp [insertDesc, hx, ih]

/-- Sorting preserves the length. -/
lemma length_sortDesc {κ : Type} :
    ∀ l : List (Row κ), (sortDesc l).length = l.length := by
  intro l
  induction l with
  | nil => rfl
  | cons x xs ih => simp [sortDesc, length_insertDesc, ih]

/-- C9: against a durable store of 25 entries, page=2 with per_page=10
returns exactly 10 items, the entries at positions 10..19 of the
descending-updated order, with total 25; and per_page is always capped
at 50. -/
theorem claim_C9 {κ : Type} (store : List (Row κ)) (h : store.length = 25) :
    ((receipts_db store (some 2) (some 10)).1).length = 10 ∧
    (receipts_db store (some 2) (some 10)).2 = 25 ∧
    (∀ i : Nat, i < 10 →
      ((receipts_db store (some 2) (some 10)).1)[i]?
        = ((sortDesc store).map (·.payload))[10 + i]?) ∧
    (∀ pArg perArg : Option Int, (pageParams pArg perArg).2 ≤ 50) := by
  have hs : (sortDesc store).length = 25 := by rw [length_sortDesc, h]
  have e1 : (receipts_db store (some 2) (some 10)).1
      = (((sortDesc store).drop 10).take 10).map (·.payload) := rfl
  have e2 : (receipts_db store (some 2) (some 10)).2 = store.length := rfl
  refine ⟨?_, ?_, ?_, ?_⟩
  · rw [e1]
    simp only [List.length_map, List.length_take, List.length_drop, hs]
    omega
  · rw [e2, h]
  · intro i hi
    rw [e1, List.getElem?_map, List.getElem?_take, if_pos hi, List.getElem?_drop,
      List.getElem?_map]
  · intro pArg perArg
    cases pArg <;> cases perArg <;> simp only [pageParams] <;> norm_num

/-- The 25-row store of the C9 witness, updated stamps 0..24. -/
def c9Store : List (Row String) :=
  (List.range 25).map fun i =>
    { receipt_id := toString i, receipt_number := .null, created_at := 0,
      payload := samplePayloadA, raw := .null, updated_at := (i : Int) }

/-- C9 witness: the concrete 25-row store returns 10 items and total 25
for page=2, per_page=10. -/
theorem claim_C9_witness :
    ((receipts_db c9Store (some 2) (some 10)).1).length = 10 ∧
    (receipts_db c9Store (some 2) (some 10)).2 = 25 := by
  have h := claim_C9 c9Store (by rfl)
  exact ⟨h.1, h.2.1⟩

/- ----------------------------------------------------------------
   Claim C8: the canonical identifier of fetch_and_cache_receipt.
   ---------------------------------------------------------------- -/

/-- The synthesized receipt-number fallback is a non-empty string. -/
lemma synthFallback_ne_empty (n : Nat) : synthFallback n ≠ "" := by
  intro h
  have h2 := congrArg String.data h
  rw [synthFallback, String.data_append] at h2
  simp at h2

/-- Step 1 always yields a truthy value: the last fallback is a
non-empty synthesized string. -/
lemma receiptNumberOf_truthy (nowMs : Nat) (s : List (String × Json)) :
    (receiptNumberOf nowMs s).truthy = true := by
  unfold receiptNumberOf
  by_cases h1 : (dictGet s "DocNumber").truthy
  · simp [orJ, h1]
  · by_cases h2 : (dictGet s "Id").truthy
    · simp [orJ, h1, h2]
    · simp only [orJ, h1, Bool.false_eq_true, if_false, h2]
      simp [Json.truthy, synthFallback_ne_empty nowMs]

/-- Inverting a successful parse on the receipt number: the record's
receiptNumber is exactly what step 1 produced. -/
lemma parse_ok_receiptNumber (nowMs : Nat) (nowIso : String) (s : List (String × Json))
    (p : Parsed) (h : parse_salesreceipt nowMs nowIso s = .ok p) :
    p.receiptNumber = receiptNumberOf nowMs s := by
  cases h1 : createdAtOf nowIso s <;>
    simp only [parse_salesreceipt, h1, reduceCtorEq] at h
  cases h2 : customerNameOf s <;> simp only [h2, reduceCtorEq] at h
  cases h3 : contactOf s <;> simp only [h3, reduceCtorEq] at h
  cases h4 : servedByOf s <;> simp only [h4, reduceCtorEq] at h
  cases h5 : asIterable (orJ (dictGetD s "Line" (.arr [])) (.arr [])) <;>
    simp only [h5, reduceCtorEq] at h
  rename_i lines
  cases h6 : lines.mapM itemOfLine <;> simp only [h6, reduceCtorEq] at h
  cases h7 : asIterable (orJ (dictGetD s "TaxLine" (.arr [])) (.arr [])) <;>
    simp only [h7, reduceCtorEq] at h
  rename_i tlines
  cases h8 : tlines.mapM taxOfLine <;> simp only [h8, reduceCtorEq] at h
  cases h9 : asIterable (orJ (dictGetD s "Payment" (.arr [])) (.arr [])) <;>
    simp only [h9, reduceCtorEq] at h
  rename_i ps
  cases h10 : ps.mapM paymentOf <;> simp only [h10, reduceCtorEq, Except.ok.injEq] at h
  subst h
  rfl

/-- C8 (as claimed): when fetch_and_cache_receipt succeeds with a
record, the single canonical identifier both the durable upsert and the
in-memory write are keyed by equals the parsed receiptNumber — which is
always truthy, so the DocNumber / Id fallbacks never fire — and there
is a concrete successful call whose canonical identifier differs from
the receipt_id argument. -/
theorem claim_C8 :
    (∀ (receiptId : String) (resp : Option Json) (nowMs : Nat) (nowIso : String)
       (nowT : Int) (db : List (Row Json)) (im : List (Json × Parsed))
       (out : FetchOut) (p : Parsed),
      fetch_and_cache_receipt receiptId resp nowMs nowIso nowT db im = .ok out →
      out.result = some p →
      out.key = some p.receiptNumber ∧ p.receiptNumber.truthy = true ∧
      ∃ raw : Json,
        out.db = cache_receipt_in_db nowT p.receiptNumber p raw db ∧
        out.inmem = setAssoc im p.receiptNumber p) ∧
    (∃ out : FetchOut,
      fetch_and_cache_receipt "99"
          (some (.obj [("SalesReceipt", .obj [("DocNumber", .str "R-42")])]))
          0 "" 0 [] [] = .ok out ∧
      out.key = some (.str "R-42") ∧ some (Json.str "R-42") ≠ some (Json.str "99")) := by
  constructor
  · intro receiptId resp nowMs nowIso nowT db im out p hok hres
    cases resp with
    | none =>
      simp only [fetch_and_cache_receipt, Except.ok.injEq] at hok
      rw [← hok] at hres
      simp at hres
    | some q =>
      cases henv : unwrapEnvelope q with
      | error e => simp only [fetch_and_cache_receipt, henv, reduceCtorEq] at hok
      | ok raw =>
        by_cases htr : raw.truthy
        · cases raw <;>
            simp only [fetch_and_cache_receipt, henv, htr, Bool.not_true,
              Bool.false_eq_true, if_false, reduceCtorEq] at hok
          rename_i pkvs
          cases hp : parse_salesreceipt nowMs nowIso pkvs <;>
            simp only [hp, reduceCtorEq, Except.ok.injEq] at hok
          rename_i parsed
          rw [← hok] at hres
          simp only at hres
          obtain rfl : parsed = p := Option.some.inj hres
          have hrn : parsed.receiptNumber.truthy = true := by
            rw [parse_ok_receiptNumber nowMs nowIso pkvs parsed hp]
            exact receiptNumberOf_truthy nowMs pkvs
          have hcanon :
              orJ parsed.receiptNumber
                (orJ (dictGet pkvs "DocNumber") (dictGet pkvs "Id"))
                = parsed.receiptNumber := by
            simp [orJ, hrn]
          rw [← hok]
          exact ⟨by simp [hcanon], hrn, .obj pkvs, by simp [hcanon], by simp [hcanon]⟩
        · have hf : raw.truthy = false := eq_false_of_ne_true htr
          simp only [fetch_and_cache_receipt, henv, hf, Bool.not_false, if_true,
            Except.ok.injEq] at hok
          rw [← hok] at hres
          simp at hres
  · refine ⟨_, rfl, rfl, ?_⟩
    intro h
    exact absurd (Json.str.inj (Option.some.inj h)) (by decide)

/-- C8 witness: a successful fetch keyed the writes by the parsed
receiptNumber. -/
theorem claim_C8_witness :
    ∃ (out : FetchOut) (p : Parsed),
      fetch_and_cache_receipt "99"
          (some (.obj [("SalesReceipt", .obj [("DocNumber", .str "R-42")])]))
          0 "" 0 [] [] = .ok out ∧
      out.result = some p ∧
      out.key = some p.receiptNumber ∧ p.receiptNumber.truthy = true := by
  have h := claim_C8.1 "99"
    (some (.obj [("SalesReceipt", .obj [("DocNumber", .str "R-42")])]))
    0 "" 0 [] [] _ _ rfl rfl
  exact ⟨_, _, rfl, rfl, h.1, h.2.1⟩

/- ----------------------------------------------------------------
   Claim C1: totality of the normalizer.
   ---------------------------------------------------------------- -/

/-- A nested value is safe to `.get` on along the `or` defaults: it is
a dict, or falsy (so the `or {}` default takes over). -/
def objOK (j : Json) : Bool :=
  match j with
  | .obj _ => true
  | _ => !j.truthy

/-- CustomerMemo is safe: the defaulted holder is a dict whose value
(defaulted to the empty string) is a string, so `.strip()` succeeds. -/
def memoOK (s : List (String × Json)) : Bool :=
  match orJ (dictGet s "CustomerMemo") (.obj []) with
  | .obj kvs =>
    (match dictGetD kvs "value" (.str "") with
     | .str _ => true
     | _ => false)
  | _ => false

/-- A custom-field entry is safe: a dict whose defaulted Name is a
string, so `.lower()` succeeds. -/
def cfEntryOK (cf : Json) : Bool :=
  match cf with
  | .obj kvs =>
    (match orJ (dictGet kvs "Name") (.str "") with
     | .str _ => true
     | _ => false)
  | _ => false

/-- The CustomField field is safe: the defaulted value is a list of
safe entries. -/
def cfOK (s : List (String × Json)) : Bool :=
  match orJ (dictGetD s "CustomField" (.arr [])) (.arr []) with
  | .arr cfs => cfs.all cfEntryOK
  | _ => false

/-- A line entry is safe: a dict whose defaulted detail and item
reference are dicts. -/
def lineOK (l : Json) : Bool :=
  match l with
  | .obj lkvs =>
    (match orJ (dictGet lkvs "SalesItemLineDetail") (.obj []) with
     | .obj dkvs =>
       (match orJ (dictGet dkvs "ItemRef") (.obj []) with
        | .obj _ => true
        | _ => false)
     | _ => false)
  | _ => false

/-- The Line field is safe. -/
def linesOK (s : List (String × Json)) : Bool :=
  match orJ (dictGetD s "Line" (.arr [])) (.arr []) with
  | .arr ls => ls.all lineOK
  | _ => false

/-- A defaulted field is a list of dicts (TaxLine / Payment entries). -/
def objListOK (j : Json) : Bool :=
  match j with
  | .arr xs =>
    xs.all fun x =>
      match x with
      | .obj _ => true
      | _ => false
  | _ => false

/-- The shapes under which every `.get`, `.strip`, `.lower` and list
iteration of parse_salesreceipt succeeds: each nested value that the
parser reads as a dict is a dict or falsy, the memo value is a string,
and the three iterated fields are lists of dicts. -/
def WellShaped (s : List (String × Json)) : Bool :=
  objOK (dictGet s "MetaData") && objOK (dictGet s "CustomerRef") &&
  objOK (dictGet s "BillAddr") && objOK (dictGet s "ShipAddr") &&
  objOK (dictGet s "BillEmail") && memoOK s && cfOK s && linesOK s &&
  objListOK (orJ (dictGetD s "TaxLine" (.arr [])) (.arr [])) &&
  objListOK (orJ (dictGetD s "Payment" (.arr [])) (.arr []))

/-- A truthy objOK value is a dict. -/
lemma truthy_objOK_is_obj (j : Json) (h : objOK j = true) (ht : j.truthy = true) :
    ∃ kvs, j = .obj kvs := by
  cases j with
  | obj kvs => exact ⟨kvs, rfl⟩
  | null => exact absurd ht (by simp [Json.truthy])
  | bool b =>
    have h2 : (!(Json.bool b).truthy) = true := h
    rw [ht] at h2
    exact absurd h2 (by simp)
  | num n =>
    have h2 : (!(Json.num n).truthy) = true := h
    rw [ht] at h2
    exact absurd h2 (by simp)
  | fnum q =>
    have h2 : (!(Json.fnum q).truthy) = true := h
    rw [ht] at h2
    exact absurd h2 (by simp)
  | str t =>
    have h2 : (!(Json.str t).truthy) = true := h
    rw [ht] at h2
    exact absurd h2 (by simp)
  | arr xs =>
    have h2 : (!(Json.arr xs).truthy) = true := h
    rw [ht] at h2
    exact absurd h2 (by simp)

/-- An objOK value defaulted by `or {}` is a dict. -/
lemma orJ_obj_of_objOK (j : Json) (h : objOK j = true) :
    ∃ kvs, orJ j (.obj []) = .obj kvs := by
  by_cases ht : j.truthy
  · obtain ⟨kvs, rfl⟩ := truthy_objOK_is_obj j h ht
    exact ⟨kvs, by simp [orJ, ht]⟩
  · exact ⟨[], by simp [orJ, ht]⟩

/-- mget on an `or {}`-defaulted objOK value succeeds. -/
lemma mget_orJ_ok (j : Json) (k : String) (h : objOK j = true) :
    ∃ v, mget (orJ j (.obj [])) k = .ok v := by
  obtain ⟨kvs, hk⟩ := orJ_obj_of_objOK j h
  exact ⟨dictGet kvs k, by rw [hk]; rfl⟩

/-- Step 2 succeeds on a well-shaped MetaData. -/
lemma createdAtOf_ok (nowIso : String) (s : List (String × Json))
    (h : objOK (dictGet s "MetaData") = true) :
    ∃ v, createdAtOf nowIso s = .ok v := by
  obtain ⟨v, hv⟩ := mget_orJ_ok (dictGet s "MetaData") "CreateTime" h
  exact ⟨_, by rw [createdAtOf, hv]⟩

/-- Step 3 succeeds on a well-shaped CustomerRef. -/
lemma customerNameOf_ok (s : List (String × Json))
    (h : objOK (dictGet s "CustomerRef") = true) :
    ∃ v, customerNameOf s = .ok v := by
  obtain ⟨v, hv⟩ := mget_orJ_ok (dictGet s "CustomerRef") "name" h
  exact ⟨_, by rw [customerNameOf, hv]⟩

/-- One contact arm succeeds on a well-shaped holder. -/
lemma contactArm_ok (holder : Json) (k : String) (h : objOK holder = true) :
    ∃ o, contactArm holder k = .ok o := by
  by_cases ht : holder.truthy
  · obtain ⟨kvs, rfl⟩ := truthy_objOK_is_obj holder h ht
    refine ⟨if (dictGet kvs k).truthy then some (dictGet kvs k) else none, ?_⟩
    rw [contactArm, if_pos ht]
    rfl
  · exact ⟨none, by rw [contactArm, if_neg ht]⟩

/-- Step 4 succeeds on well-shaped address and email holders. -/
lemma contactOf_ok (s : List (String × Json))
    (h1 : objOK (dictGet s "BillAddr") = true)
    (h2 : objOK (dictGet s "ShipAddr") = true)
    (h3 : objOK (dictGet s "BillEmail") = true) :
    ∃ v, contactOf s = .ok v := by
  obtain ⟨o1, ho1⟩ := contactArm_ok (dictGet s "BillAddr") "Line1" h1
  obtain ⟨o2, ho2⟩ := contactArm_ok (dictGet s "ShipAddr") "Line1" h2
  obtain ⟨o3, ho3⟩ := contactArm_ok (dictGet s "BillEmail") "Address" h3
  rw [contactOf]
  cases o1 with
  | some v => exact ⟨v, by rw [ho1]⟩
  | none =>
    rw [ho1]
    cases o2 with
    | some v => exact ⟨v, by rw [ho2]⟩
    | none =>
      rw [ho2]
      cases o3 with
      | some v => exact ⟨v, by rw [ho3]⟩
      | none => exact ⟨.str "", by rw [ho3]⟩

/-- The memo read succeeds on a well-shaped CustomerMemo. -/
lemma memoValue_ok (s : List (String × Json)) (h : memoOK s = true) :
    ∃ m, memoValue s = .ok m := by
  cases hcm : orJ (dictGet s "CustomerMemo") (.obj []) <;>
    simp only [memoOK, hcm, Bool.false_eq_true] at h
  rename_i kvs
  cases hval : dictGetD kvs "value" (.str "") <;>
    simp only [hval, Bool.false_eq_true] at h
  rename_i t
  exact ⟨pyStrip t, by simp only [memoValue, hcm, mgetD, hval]⟩

/-- Fallback (b) succeeds on a well-shaped CustomerMemo. -/
lemma servedByMemo_ok (s : List (String × Json)) (sb : Json) (h : memoOK s = true) :
    ∃ v, servedByMemo s sb = .ok v := by
  obtain ⟨m, hm⟩ := memoValue_ok s h
  by_cases he : m == ""
  · exact ⟨sb, by simp [servedByMemo, hm, he]⟩
  · have he2 : (m == "") = false := by simpa using he
    by_cases hmark : strHasSub (toLowerStr m) "served by" = true
    · exact ⟨memoLineLoop (pySplitlines m) sb, by simp [servedByMemo, hm, he2, hmark]⟩
    · have hm2 : strHasSub (toLowerStr m) "served by" = false := eq_false_of_ne_true hmark
      exact ⟨.str m, by simp [servedByMemo, hm, he2, hm2]⟩

/-- Fallback (c) succeeds on well-shaped custom-field entries. -/
lemma customFieldLoop_ok :
    ∀ (cfs : List Json), cfs.all cfEntryOK = true →
    ∀ acc, ∃ v, customFieldLoop acc cfs = .ok v := by
  intro cfs
  induction cfs with
  | nil => exact fun _ acc => ⟨acc, rfl⟩
  | cons cf rest ih =>
    intro hall acc
    rw [List.all_cons, Bool.and_eq_true] at hall
    obtain ⟨hcf, hrest⟩ := hall
    cases cf with
    | obj kvs =>
      cases hnm : orJ (dictGet kvs "Name") (.str "") <;>
        simp only [cfEntryOK, hnm, Bool.false_eq_true] at hcf
      rename_i t
      by_cases hc : (strHasSub (toLowerStr t) "served"
          || strHasSub (toLowerStr t) "location"
          || strHasSub (toLowerStr t) "branch") = true
      · exact ⟨orJ (dictGet kvs "StringValue") (orJ (dictGet kvs "Value") (.str "")),
          by simp [customFieldLoop, mget, hnm, hc]⟩
      · have hc2 : (strHasSub (toLowerStr t) "served"
            || strHasSub (toLowerStr t) "location"
            || strHasSub (toLowerStr t) "branch") = false := eq_false_of_ne_true hc
        obtain ⟨v, hv⟩ := ih hrest acc
        refine ⟨v, ?_⟩
        simp only [customFieldLoop, mget, hnm, hc2, Bool.false_eq_true, if_false]
        exact hv
    | null => exact absurd hcf (by simp [cfEntryOK])
    | bool b => exact absurd hcf (by simp [cfEntryOK])
    | num n => exact absurd hcf (by simp [cfEntryOK])
    | fnum q => exact absurd hcf (by simp [cfEntryOK])
    | str t => exact absurd hcf (by simp [cfEntryOK])
    | arr xs => exact absurd hcf (by simp [cfEntryOK])

/-- Step 5 succeeds on a well-shaped memo and custom fields. -/
lemma servedByOf_ok (s : List (String × Json)) (h1 : memoOK s = true)
    (h2 : cfOK s = true) : ∃ v, servedByOf s = .ok v := by
  by_cases ht : (servedByRefs s).truthy
  · exact ⟨servedByRefs s, by simp [servedByOf, ht]⟩
  · obtain ⟨v1, hv1⟩ := servedByMemo_ok s (servedByRefs s) h1
    by_cases ht1 : v1.truthy
    · exact ⟨v1, by simp [servedByOf, ht, hv1, ht1]⟩
    · have ht1f : v1.truthy = false := eq_false_of_ne_true ht1
      cases hcf : orJ (dictGetD s "CustomField" (.arr [])) (.arr []) <;>
        simp only [cfOK, hcf, Bool.false_eq_true] at h2
      rename_i cfs
      obtain ⟨v, hv⟩ := customFieldLoop_ok cfs h2 v1
      exact ⟨v, by simp [servedByOf, ht, hv1, ht1f, hcf, asIterable, hv]⟩

/-- A well-shaped line entry parses. -/
lemma itemOfLine_ok (l : Json) (h : lineOK l = true) :
    ∃ it, itemOfLine l = .ok it := by
  cases l with
  | obj lkvs =>
    cases hd : orJ (dictGet lkvs "SalesItemLineDetail") (.obj []) <;>
      simp only [lineOK, hd, Bool.false_eq_true] at h
    rename_i dkvs
    cases hi : orJ (dictGet dkvs "ItemRef") (.obj []) <;>
      simp only [hi, Bool.false_eq_true] at h
    rename_i ikvs
    refine ⟨{ name := orJ (dictGet ikvs "name") (.str ""),
              description := orJ (dictGet lkvs "Description") (.str ""),
              quantity := orJ (dictGet dkvs "Qty") (orJ (dictGet dkvs "Quantity") (.num 1)),
              unit_price := orJ (dictGet dkvs "UnitPrice") (.num 0),
              amount := orJ (dictGet lkvs "Amount") (.num 0),
              tax_code :=
                match dictGet dkvs "TaxCodeRef" with
                | .obj tkvs => dictGet tkvs "value"
                | _ => .null }, ?_⟩
    simp only [itemOfLine, hd, hi]
  | null => exact absurd h (by simp [lineOK])
  | bool b => exact absurd h (by simp [lineOK])
  | num n => exact absurd h (by simp [lineOK])
  | fnum q => exact absurd h (by simp [lineOK])
  | str t => exact absurd h (by simp [lineOK])
  | arr xs => exact absurd h (by simp [lineOK])

/-- Mapping itemOfLine over well-shaped lines succeeds. -/
lemma mapM_itemOfLine_ok :
    ∀ ls : List Json, ls.all lineOK = true →
      ∃ its, ls.mapM itemOfLine = .ok its := by
  intro ls
  induction ls with
  | nil => exact fun _ => ⟨[], rfl⟩
  | cons l rest ih =>
    intro hall
    rw [List.all_cons, Bool.and_eq_true] at hall
    obtain ⟨it, hit⟩ := itemOfLine_ok l hall.1
    obtain ⟨its, hits⟩ := ih hall.2
    refine ⟨it :: its, ?_⟩
    rw [List.mapM_cons, hit, hits]
    rfl

/-- Mapping taxOfLine over dict entries succeeds. -/
lemma mapM_taxOfLine_ok :
    ∀ ls : List Json,
      (ls.all fun x => match x with | .obj _ => true | _ => false) = true →
      ∃ ts, ls.mapM taxOfLine = .ok ts := by
  intro ls
  induction ls with
  | nil => exact fun _ => ⟨[], rfl⟩
  | cons l rest ih =>
    intro hall
    rw [List.all_cons, Bool.and_eq_true] at hall
    obtain ⟨ts, hts⟩ := ih hall.2
    cases l with
    | obj kvs =>
      obtain ⟨t1, ht1⟩ : ∃ t1, taxOfLine (.obj kvs) = .ok t1 := ⟨_, rfl⟩
      refine ⟨t1 :: ts, ?_⟩
      rw [List.mapM_cons, ht1, hts]
      rfl
    | null => exact absurd hall.1 (by simp)
    | bool b => exact absurd hall.1 (by simp)
    | num n => exact absurd hall.1 (by simp)
    | fnum q => exact absurd hall.1 (by simp)
    | str t => exact absurd hall.1 (by simp)
    | arr xs => exact absurd hall.1 (by simp)

/-- Mapping paymentOf over dict entries succeeds. -/
lemma mapM_paymentOf_ok :
    ∀ ls : List Json,
      (ls.all fun x => match x with | .obj _ => true | _ => false) = true →
      ∃ ps, ls.mapM paymentOf = .ok ps := by
  intro ls
  induction ls with
  | nil => exact fun _ => ⟨[], rfl⟩
  | cons l rest ih =>
    intro hall
    rw [List.all_cons, Bool.and_eq_true] at hall
    obtain ⟨ps, hps⟩ := ih hall.2
    cases l with
    | obj kvs =>
      obtain ⟨p1, hp1⟩ : ∃ p1, paymentOf (.obj kvs) = .ok p1 := ⟨_, rfl⟩
      refine ⟨p1 :: ps, ?_⟩
      rw [List.mapM_cons, hp1, hps]
      rfl
    | null => exact absurd hall.1 (by simp)
    | bool b => exact absurd hall.1 (by simp)
    | num n => exact absurd hall.1 (by simp)
    | fnum q => exact absurd hall.1 (by simp)
    | str t => exact absurd hall.1 (by simp)
    | arr xs => exact absurd hall.1 (by simp)

/-- C1 counterexample: the parser is not total over nested shapes — a
document whose CustomerRef is a (truthy) string raises AttributeError
at the `.get` call of line 290, modelled as an error result. -/
theorem claim_C1_counterexample :
    parse_salesreceipt 0 "" [("CustomerRef", .str "boom")]
      = .error "AttributeError: get" ∧
    isOkE (parse_salesreceipt 0 "" [("CustomerRef", .str "boom")]) = false :=
  ⟨rfl, rfl⟩

/-- C1 (amended): the normalizer is total over well-shaped documents —
whenever every nested value read as a dict is a dict or falsy, the memo
value is a string, and Line / TaxLine / Payment / CustomField are lists
of (safe) dicts, parse_salesreceipt returns a record with all nine
canonical fields; on the empty object the string fields default to
empty, the collections to empty, total to zero, and receiptNumber and
createdAt to their synthesized fallbacks. -/
theorem claim_C1 (nowMs : Nat) (nowIso : String) (s : List (String × Json))
    (h : WellShaped s = true) :
    (∃ p : Parsed, parse_salesreceipt nowMs nowIso s = .ok p) ∧
    parse_salesreceipt nowMs nowIso [] =
      .ok { receiptNumber := .str (synthFallback nowMs), createdAt := .str nowIso,
            customerName := .str "", customerContact := .str "", servedBy := .str "",
            items := [], taxes := [], payments := [], total := .num 0 } := by
  constructor
  · rw [WellShaped] at h
    simp only [Bool.and_eq_true] at h
    obtain ⟨⟨⟨⟨⟨⟨⟨⟨⟨hMeta, hCust⟩, hBill⟩, hShip⟩, hEmail⟩, hMemo⟩, hCf⟩, hLines⟩,
      hTax⟩, hPay⟩ := h
    obtain ⟨v2, h2⟩ := createdAtOf_ok nowIso s hMeta
    obtain ⟨v3, h3⟩ := customerNameOf_ok s hCust
    obtain ⟨v4, h4⟩ := contactOf_ok s hBill hShip hEmail
    obtain ⟨v5, h5⟩ := servedByOf_ok s hMemo hCf
    cases hl : orJ (dictGetD s "Line" (.arr [])) (.arr []) <;>
      simp only [linesOK, hl, Bool.false_eq_true] at hLines
    rename_i ls
    obtain ⟨its, hits⟩ := mapM_itemOfLine_ok ls hLines
    cases htl : orJ (dictGetD s "TaxLine" (.arr [])) (.arr []) <;>
      simp only [objListOK, htl, Bool.false_eq_true] at hTax
    rename_i tls
    obtain ⟨ts, hts⟩ := mapM_taxOfLine_ok tls hTax
    cases hpl : orJ (dictGetD s "Payment" (.arr [])) (.arr []) <;>
      simp only [objListOK, hpl, Bool.false_eq_true] at hPay
    rename_i pls
    obtain ⟨pays, hpays⟩ := mapM_paymentOf_ok pls hPay
    refine ⟨{ receiptNumber := receiptNumberOf nowMs s, createdAt := v2,
              customerName := v3, customerContact := v4, servedBy := v5,
              items := its, taxes := ts, payments := pays, total := totalOf s }, ?_⟩
    simp only [parse_salesreceipt, h2, h3, h4, h5, hl, htl, hpl, asIterable,
      hits, hts, hpays]
  · rfl

/-- A realistic well-shaped document for the C1 witness. -/
def c1Doc : List (String × Json) :=
  [("DocNumber", .str "1042"),
   ("CustomerRef", .obj [("name", .str "Acme")]),
   ("BillAddr", .obj [("Line1", .str "1 Main St")]),
   ("CustomerMemo", .obj [("value", .str "Served by: Ann")]),
   ("Line", .arr [.obj [("Amount", .num 5),
     ("SalesItemLineDetail", .obj [("ItemRef", .obj [("name", .str "Tea")]),
       ("Qty", .num 2)])]]),
   ("TaxLine", .arr [.obj [("Amount", .num 1)]]),
   ("TotalAmt", .num 6)]

/-- C1 witness: the well-shaped sample document parses, and the empty
object takes all defaults. -/
theorem claim_C1_witness :
    WellShaped c1Doc = true ∧
    (∃ p : Parsed, parse_salesreceipt 3 "2024-01-01T00:00:00" c1Doc = .ok p) ∧
    parse_salesreceipt 3 "2024-01-01T00:00:00" [] =
      .ok { receiptNumber := .str (synthFallback 3),
            createdAt := .str "2024-01-01T00:00:00",
            customerName := .str "", customerContact := .str "", servedBy := .str "",
            items := [], taxes := [], payments := [], total := .num 0 } := by
  have h := claim_C1 3 "2024-01-01T00:00:00" c1Doc (by decide)
  exact ⟨by decide, h.1, h.2⟩

end Qbo
